import Mathlib

/-!
Verification of the CSV converter's core conversion procedures.

The program converts tabular records between two CSV schemas, SK and WP.
A table is modelled as a list of column names together with a list of rows,
each row a list of scalar cell values aligned with the column list.

The two conversion functions are embedded faithfully from app/main.py:
  - convert_sk_to_wp assigns a fresh ID column (20000, 20001, ...) to the
    source table in place, fills every WP-schema column missing from the
    source with the value found in the first row of the WP reference table,
    and finally selects the columns in the order: ID first, then every other
    WP reference column in original order.  Because the column assignments
    mutate the source dataframe, the embedding returns both the final state
    of the source table and the selected result.
  - convert_wp_to_sk selects, from the WP-format input, exactly the columns
    named by the SK reference table; a missing column is a reported error
    that lists the missing names (the dataframe library raises a KeyError
    naming the columns that are not in the index).
-/

/-- A scalar cell value: the CSV parser yields numbers or text; the only
value the program ever constructs itself is an integer ID. -/
inductive Value where
  | intV : Int → Value
  | strV : String → Value
deriving DecidableEq, Repr

/-- The blank value read from a cell that does not exist. -/
def blank : Value := Value.strV ""

/-- A dataframe: named, ordered columns and a list of rows whose cells are
positionally aligned with the column list. -/
structure DataFrame where
  columns : List String
  rows : List (List Value)
deriving DecidableEq, Repr

/-- Well-formedness: every row has exactly one cell per column. -/
def DataFrame.WF (df : DataFrame) : Prop :=
  ∀ r ∈ df.rows, r.length = df.columns.length

instance (df : DataFrame) : Decidable df.WF := by
  unfold DataFrame.WF; infer_instance

/-- The cell of a row under a given column name (first matching column). -/
def rowVal : List String → List Value → String → Value
  | [], _, _ => blank
  | _ :: _, [], _ => blank
  | c0 :: cs, v :: vs, c => if c0 = c then v else rowVal cs vs c

/-- Overwrite, within one row, the cell of the given column name. -/
def rowSet : List String → List Value → String → Value → List Value
  | [], r, _, _ => r
  | _ :: _, [], _, _ => []
  | c0 :: cs, v0 :: vs, c, v =>
    if c0 = c then v :: vs else v0 :: rowSet cs vs c v

/-- The values of one column, top to bottom. -/
def colValues (df : DataFrame) (c : String) : List Value :=
  df.rows.map (fun r => rowVal df.columns r c)

/-- Dataframe column assignment `df[c] = vals` with one value per row:
overwrites the column if present, otherwise appends it on the right. -/
def setColumnVals (df : DataFrame) (c : String) (vals : List Value) : DataFrame :=
  if df.columns.contains c then
    ⟨df.columns, List.zipWith (fun r v => rowSet df.columns r c v) df.rows vals⟩
  else
    ⟨df.columns ++ [c], List.zipWith (fun r v => r ++ [v]) df.rows vals⟩

/-- Dataframe column assignment `df[c] = v` broadcasting one scalar to all
rows: overwrites the column if present, otherwise appends it on the right. -/
def setColumnConst (df : DataFrame) (c : String) (v : Value) : DataFrame :=
  if df.columns.contains c then
    ⟨df.columns, df.rows.map (fun r => rowSet df.columns r c v)⟩
  else
    ⟨df.columns ++ [c], df.rows.map (fun r => r ++ [v])⟩

/-- Conversion errors, mirroring the exceptions the dataframe library
raises in the two fallible spots of the conversion code. -/
inductive ConvError where
  | emptyReference
  | missingColumns (cols : List String)
deriving DecidableEq, Repr

/-- The message text of the underlying exception, as `str(e)` renders it. -/
def errMessage : ConvError → String
  | ConvError.emptyReference => "single positional indexer is out-of-bounds"
  | ConvError.missingColumns cs => String.intercalate ", " cs ++ " not in index"

/-- Column selection `df[cols]`: reorders and duplicates columns by name;
raises an error naming the requested columns that are absent. -/
def selectColumns (df : DataFrame) (cols : List String) : Except ConvError DataFrame :=
  let missing := cols.filter (fun c => !(df.columns.contains c))
  if missing.isEmpty then
    Except.ok ⟨cols, df.rows.map (fun r => cols.map (fun c => rowVal df.columns r c))⟩
  else
    Except.error (ConvError.missingColumns missing)

/-- The fresh ID column assigned by SK→WP: 20000, 20001, ... one per row. -/
def idValues (n : Nat) : List Value :=
  (List.range n).map (fun i => Value.intV (20000 + Int.ofNat i))

/-- One step of the default-filling loop of convert_sk_to_wp: a WP column
absent from the accumulating table is added, every row receiving the
WP reference table's first-row value for that column. -/
def fillStep (wpCols : List String) (defaults : List Value)
    (acc : DataFrame) (col : String) : DataFrame :=
  if acc.columns.contains col then acc
  else setColumnConst acc col (rowVal wpCols defaults col)

/-- The default-filling loop of convert_sk_to_wp over the WP columns. -/
def fillMissing (wpCols : List String) (defaults : List Value)
    (acc : DataFrame) (cols : List String) : DataFrame :=
  cols.foldl (fillStep wpCols defaults) acc

/-- SK→WP conversion, embedded from convert_sk_to_wp in app/main.py.
The Python function mutates its sk argument in place (the ID assignment and
the default-filling loop are dataframe column assignments), so the embedding
returns the pair (final state of sk, returned selection). -/
def convert_sk_to_wp (sk wp : DataFrame) : Except ConvError (DataFrame × DataFrame) :=
  let sk1 := setColumnVals sk "ID" (idValues sk.rows.length)
  match wp.rows with
  | [] => Except.error ConvError.emptyReference
  | wpDefaults :: _ =>
    let sk2 := fillMissing wp.columns wpDefaults sk1 wp.columns
    (selectColumns sk2 ("ID" :: wp.columns.filter (fun c => c != "ID"))).map
      (fun out => (sk2, out))

/-- WP→SK conversion, embedded from convert_wp_to_sk in app/main.py:
select from the WP-format input exactly the SK reference table's columns. -/
def convert_wp_to_sk (wp sk : DataFrame) : Except ConvError DataFrame :=
  selectColumns wp sk.columns

/-- An HTTP response as far as the claims are concerned: a status code and
the body text (the converted CSV on success, the error detail on failure). -/
structure HttpResponse where
  status : Nat
  body : String
deriving DecidableEq, Repr

/-- CSV serialization of a cell. -/
def valueText : Value → String
  | Value.intV i => toString i
  | Value.strV s => s

/-- CSV serialization of a dataframe, as to_csv(index=False) produces. -/
def toCsv (df : DataFrame) : String :=
  String.intercalate "\n"
    (String.intercalate "," df.columns ::
      df.rows.map (fun r => String.intercalate "," (r.map valueText))) ++ "\n"

/-- The try/except body shared by the four HTTP handlers: a successful
conversion is returned with status 200, and any raised error becomes an
HTTPException with status 500 whose detail is the exception's message. -/
def endpointRespond (res : Except ConvError DataFrame) : HttpResponse :=
  match res with
  | Except.ok out => ⟨200, toCsv out⟩
  | Except.error e => ⟨500, errMessage e⟩

/-- A conversion endpoint: parse the request payload, load the reference
table, convert, respond.  The CSV parsing of the payload is external to the
repository, so it enters as an already-parsed `Except` value. -/
def runEndpoint (parsed : Except ConvError DataFrame) (ref : DataFrame)
    (conv : DataFrame → DataFrame → Except ConvError DataFrame) : HttpResponse :=
  endpointRespond (parsed.bind (fun df => conv df ref))

instance {ε α : Type} [DecidableEq ε] [DecidableEq α] : DecidableEq (Except ε α)
  | Except.ok a, Except.ok b =>
    if h : a = b then isTrue (by rw [h]) else isFalse (by simp [h])
  | Except.ok _, Except.error _ => isFalse (by simp)
  | Except.error _, Except.ok _ => isFalse (by simp)
  | Except.error e, Except.error f =>
    if h : e = f then isTrue (by rw [h]) else isFalse (by simp [h])

/-- A 1-row SK-format table with the single column Name. -/
def skNameA : DataFrame := ⟨["Name"], [[Value.strV "A"]]⟩

/-- The 2-row SK-format table of the specification's worked scenario. -/
def skNameAB : DataFrame := ⟨["Name"], [[Value.strV "A"], [Value.strV "B"]]⟩

/-- An SK-format table that already carries an ID column. -/
def skInputIDName : DataFrame := ⟨["ID", "Name"], [[Value.intV 7, Value.strV "A"]]⟩

/-- A WP reference table with columns ID, Name, Price and defaults 1, X, 9.99. -/
def wpRefINP : DataFrame :=
  ⟨["ID", "Name", "Price"], [[Value.intV 1, Value.strV "X", Value.strV "9.99"]]⟩

/-- A WP reference table whose schema has no ID column. -/
def wpRefNameOnly : DataFrame := ⟨["Name"], [[Value.strV "X"]]⟩

/-- A WP-format input table with columns ID, Name, Price. -/
def wpInputINP : DataFrame :=
  ⟨["ID", "Name", "Price"], [[Value.intV 3, Value.strV "A", Value.strV "9.99"]]⟩

/-- An SK reference table with the single column Name. -/
def skRefName : DataFrame := ⟨["Name"], [[Value.strV "x"]]⟩

/-- An SK reference table requiring a column (Category) that WP inputs lack. -/
def skRefNameCategory : DataFrame :=
  ⟨["Name", "Category"], [[Value.strV "x", Value.strV "y"]]⟩

/-- An SK reference table with columns ID and Name. -/
def skRefIDName : DataFrame := ⟨["ID", "Name"], [[Value.intV 1, Value.strV "X"]]⟩

example :
    convert_wp_to_sk ⟨["ID", "Name"], [[Value.intV 1, Value.strV "A"]]⟩
      ⟨["Name"], [[Value.strV "x"]]⟩ =
    Except.ok ⟨["Name"], [[Value.strV "A"]]⟩ := by decide

/-! ### Row-level lemmas -/

theorem rowSet_length (cols : List String) (r : List Value) (c : String) (v : Value) :
    (rowSet cols r c v).length = r.length := by
  induction cols generalizing r with
  | nil => simp [rowSet]
  | cons c0 cs ih =>
    cases r with
    | nil => simp [rowSet]
    | cons v0 vs =>
      by_cases h : c0 = c <;> simp [rowSet, h, ih]

theorem rowVal_rowSet_self (cols : List String) (r : List Value) (c : String) (v : Value)
    (hc : c ∈ cols) (hlen : r.length = cols.length) :
    rowVal cols (rowSet cols r c v) c = v := by
  induction cols generalizing r with
  | nil => cases hc
  | cons c0 cs ih =>
    cases r with
    | nil => simp at hlen
    | cons v0 vs =>
      by_cases h : c0 = c
      · simp [rowSet, rowVal, h]
      · have hc' : c ∈ cs := by
          cases hc with
          | head => exact absurd rfl h
          | tail _ h2 => exact h2
        simp only [rowSet, rowVal, if_neg h]
        exact ih vs hc' (by simpa using hlen)

theorem rowVal_rowSet_ne (cols : List String) (r : List Value) (c c2 : String) (v : Value)
    (hne : c2 ≠ c) :
    rowVal cols (rowSet cols r c v) c2 = rowVal cols r c2 := by
  induction cols generalizing r with
  | nil => simp [rowSet]
  | cons c0 cs ih =>
    cases r with
    | nil => simp [rowSet]
    | cons v0 vs =>
      by_cases h : c0 = c
      · have h2 : ¬ c0 = c2 := by rw [h]; exact fun e => hne e.symm
        simp only [rowSet, if_pos h, rowVal, if_neg h2]
      · simp only [rowSet, if_neg h]
        by_cases h2 : c0 = c2
        · simp only [rowVal, if_pos h2]
        · simp only [rowVal, if_neg h2]
          exact ih vs

theorem rowVal_append_new (cols : List String) (r : List Value) (c : String) (v : Value)
    (hc : c ∉ cols) (hlen : r.length = cols.length) :
    rowVal (cols ++ [c]) (r ++ [v]) c = v := by
  induction cols generalizing r with
  | nil =>
    have : r = [] := List.length_eq_zero.mp hlen
    simp [this, rowVal]
  | cons c0 cs ih =>
    cases r with
    | nil => simp at hlen
    | cons v0 vs =>
      have h : ¬ c0 = c := fun e => hc (e ▸ List.mem_cons_self c0 cs)
      simp only [List.cons_append, rowVal, if_neg h]
      exact ih vs (fun m => hc (List.mem_cons_of_mem c0 m)) (by simpa using hlen)

theorem rowVal_append_old (cols : List String) (r : List Value) (c c2 : String) (v : Value)
    (hc2 : c2 ∈ cols) (hlen : r.length = cols.length) :
    rowVal (cols ++ [c]) (r ++ [v]) c2 = rowVal cols r c2 := by
  induction cols generalizing r with
  | nil => cases hc2
  | cons c0 cs ih =>
    cases r with
    | nil => simp at hlen
    | cons v0 vs =>
      by_cases h : c0 = c2
      · simp [rowVal, h]
      · have hc2' : c2 ∈ cs := by
          cases hc2 with
          | head => exact absurd rfl h
          | tail _ h2 => exact h2
        simp only [List.cons_append, rowVal, if_neg h]
        exact ih vs hc2' (by simpa using hlen)

theorem rowVal_map_self (cols : List String) (f : String → Value) (c : String)
    (hc : c ∈ cols) :
    rowVal cols (cols.map f) c = f c := by
  induction cols with
  | nil => cases hc
  | cons c0 cs ih =>
    by_cases h : c0 = c
    · simp [rowVal, h]
    · have hc' : c ∈ cs := by
        cases hc with
        | head => exact absurd rfl h
        | tail _ h2 => exact h2
      simp [rowVal, h, ih hc']

/-! ### Column-assignment lemmas -/

theorem mem_zipWith {α β γ : Type} (f : α → β → γ) :
    ∀ (l1 : List α) (l2 : List β) (c : γ), c ∈ List.zipWith f l1 l2 →
      ∃ a, a ∈ l1 ∧ ∃ b, b ∈ l2 ∧ c = f a b
  | [], _, _, h => by simp at h
  | _ :: _, [], _, h => by simp at h
  | a :: l1, b :: l2, c, h => by
    simp only [List.zipWith, List.mem_cons] at h
    cases h with
    | inl h => exact ⟨a, List.mem_cons_self a l1, b, List.mem_cons_self b l2, h⟩
    | inr h =>
      obtain ⟨a2, ha, b2, hb, rfl⟩ := mem_zipWith f l1 l2 c h
      exact ⟨a2, List.mem_cons_of_mem a ha, b2, List.mem_cons_of_mem b hb, rfl⟩

theorem setColumnVals_columns (df : DataFrame) (c : String) (vals : List Value) :
    (setColumnVals df c vals).columns = df.columns ∨
    (setColumnVals df c vals).columns = df.columns ++ [c] := by
  by_cases h : c ∈ df.columns <;> simp [setColumnVals, h]

theorem mem_setColumnVals_self (df : DataFrame) (c : String) (vals : List Value) :
    c ∈ (setColumnVals df c vals).columns := by
  by_cases h : c ∈ df.columns <;> simp [setColumnVals, h]

theorem mem_setColumnVals_of_mem (df : DataFrame) (c c2 : String) (vals : List Value)
    (h : c2 ∈ df.columns) : c2 ∈ (setColumnVals df c vals).columns := by
  by_cases hc : c ∈ df.columns <;> simp [setColumnVals, hc, h]

theorem setColumnVals_WF (df : DataFrame) (c : String) (vals : List Value)
    (hwf : df.WF) : (setColumnVals df c vals).WF := by
  unfold DataFrame.WF setColumnVals
  split
  · intro r hr
    obtain ⟨a, ha, b, _, rfl⟩ := mem_zipWith _ _ _ _ hr
    simp [rowSet_length, hwf a ha]
  · intro r hr
    obtain ⟨a, ha, b, _, rfl⟩ := mem_zipWith _ _ _ _ hr
    simp [hwf a ha]

theorem setColumnVals_rows_length (df : DataFrame) (c : String) (vals : List Value)
    (hlen : vals.length = df.rows.length) :
    (setColumnVals df c vals).rows.length = df.rows.length := by
  by_cases h : c ∈ df.columns <;> simp [setColumnVals, h, hlen]

theorem map_rowVal_zipWith_rowSet (cols : List String) (c : String) (hc : c ∈ cols) :
    ∀ (rows : List (List Value)) (vals : List Value), rows.length = vals.length →
      (∀ r ∈ rows, r.length = cols.length) →
      (List.zipWith (fun r v => rowSet cols r c v) rows vals).map
        (fun r => rowVal cols r c) = vals
  | [], [], _, _ => rfl
  | [], _ :: _, h, _ => by simp at h
  | _ :: _, [], h, _ => by simp at h
  | r :: rs, v :: vs, h, hwf => by
    simp only [List.zipWith, List.map]
    rw [rowVal_rowSet_self cols r c v hc (hwf r (List.mem_cons_self r rs))]
    rw [map_rowVal_zipWith_rowSet cols c hc rs vs (by simpa using h)
      (fun a ha => hwf a (List.mem_cons_of_mem r ha))]

theorem map_rowVal_zipWith_append_self (cols : List String) (c : String) (hc : c ∉ cols) :
    ∀ (rows : List (List Value)) (vals : List Value), rows.length = vals.length →
      (∀ r ∈ rows, r.length = cols.length) →
      (List.zipWith (fun r v => r ++ [v]) rows vals).map
        (fun r => rowVal (cols ++ [c]) r c) = vals
  | [], [], _, _ => rfl
  | [], _ :: _, h, _ => by simp at h
  | _ :: _, [], h, _ => by simp at h
  | r :: rs, v :: vs, h, hwf => by
    simp only [List.zipWith, List.map]
    rw [rowVal_append_new cols r c v hc (hwf r (List.mem_cons_self r rs))]
    rw [map_rowVal_zipWith_append_self cols c hc rs vs (by simpa using h)
      (fun a ha => hwf a (List.mem_cons_of_mem r ha))]

theorem map_rowVal_zipWith_rowSet_ne (cols : List String) (c c2 : String) (hne : c2 ≠ c) :
    ∀ (rows : List (List Value)) (vals : List Value), rows.length = vals.length →
      (List.zipWith (fun r v => rowSet cols r c v) rows vals).map
        (fun r => rowVal cols r c2) = rows.map (fun r => rowVal cols r c2)
  | [], [], _ => rfl
  | [], _ :: _, h => by simp at h
  | _ :: _, [], h => by simp at h
  | r :: rs, v :: vs, h => by
    simp only [List.zipWith, List.map]
    rw [rowVal_rowSet_ne cols r c c2 v hne]
    rw [map_rowVal_zipWith_rowSet_ne cols c c2 hne rs vs (by simpa using h)]

theorem map_rowVal_zipWith_append_old (cols : List String) (c c2 : String) (hc2 : c2 ∈ cols) :
    ∀ (rows : List (List Value)) (vals : List Value), rows.length = vals.length →
      (∀ r ∈ rows, r.length = cols.length) →
      (List.zipWith (fun r v => r ++ [v]) rows vals).map
        (fun r => rowVal (cols ++ [c]) r c2) = rows.map (fun r => rowVal cols r c2)
  | [], [], _, _ => rfl
  | [], _ :: _, h, _ => by simp at h
  | _ :: _, [], h, _ => by simp at h
  | r :: rs, v :: vs, h, hwf => by
    simp only [List.zipWith, List.map]
    rw [rowVal_append_old cols r c c2 v hc2 (hwf r (List.mem_cons_self r rs))]
    rw [map_rowVal_zipWith_append_old cols c c2 hc2 rs vs (by simpa using h)
      (fun a ha => hwf a (List.mem_cons_of_mem r ha))]

theorem colValues_setColumnVals_self (df : DataFrame) (c : String) (vals : List Value)
    (hwf : df.WF) (hlen : df.rows.length = vals.length) :
    colValues (setColumnVals df c vals) c = vals := by
  unfold colValues setColumnVals
  split
  · next h =>
    exact map_rowVal_zipWith_rowSet df.columns c (by simpa using h) df.rows vals hlen hwf
  · next h =>
    exact map_rowVal_zipWith_append_self df.columns c (by simpa using h) df.rows vals hlen hwf

theorem colValues_setColumnVals_ne (df : DataFrame) (c c2 : String) (vals : List Value)
    (hwf : df.WF) (hlen : df.rows.length = vals.length)
    (hc2 : c2 ∈ df.columns) (hne : c2 ≠ c) :
    colValues (setColumnVals df c vals) c2 = colValues df c2 := by
  unfold colValues setColumnVals
  split
  · exact map_rowVal_zipWith_rowSet_ne df.columns c c2 hne df.rows vals hlen
  · exact map_rowVal_zipWith_append_old df.columns c c2 hc2 df.rows vals hlen hwf

theorem setColumnConst_WF (df : DataFrame) (c : String) (v : Value)
    (hwf : df.WF) : (setColumnConst df c v).WF := by
  unfold DataFrame.WF setColumnConst
  split
  · intro r hr
    obtain ⟨a, ha, rfl⟩ := List.mem_map.mp hr
    simp [rowSet_length, hwf a ha]
  · intro r hr
    obtain ⟨a, ha, rfl⟩ := List.mem_map.mp hr
    simp [hwf a ha]

theorem setColumnConst_rows_length (df : DataFrame) (c : String) (v : Value) :
    (setColumnConst df c v).rows.length = df.rows.length := by
  unfold setColumnConst
  split <;> simp

theorem setColumnConst_columns_new (df : DataFrame) (c : String) (v : Value)
    (h : c ∉ df.columns) : (setColumnConst df c v).columns = df.columns ++ [c] := by
  unfold setColumnConst
  split
  · next hc => exact absurd (by simpa using hc) h
  · rfl

theorem mem_setColumnConst_of_mem (df : DataFrame) (c c2 : String) (v : Value)
    (h : c2 ∈ df.columns) : c2 ∈ (setColumnConst df c v).columns := by
  by_cases hc : c ∈ df.columns <;> simp [setColumnConst, hc, h]

theorem mem_setColumnConst_self (df : DataFrame) (c : String) (v : Value) :
    c ∈ (setColumnConst df c v).columns := by
  by_cases hc : c ∈ df.columns <;> simp [setColumnConst, hc]

theorem colValues_setColumnConst_new (df : DataFrame) (c : String) (v : Value)
    (hwf : df.WF) (h : c ∉ df.columns) :
    colValues (setColumnConst df c v) c = List.replicate df.rows.length v := by
  unfold colValues setColumnConst
  split
  · next hc => exact absurd (by simpa using hc) h
  · simp only [List.map_map]
    exact List.map_eq_replicate_iff.mpr
      (fun a ha => rowVal_append_new df.columns a c v h (hwf a ha))

theorem colValues_setColumnConst_old (df : DataFrame) (c c2 : String) (v : Value)
    (hwf : df.WF) (hnew : c ∉ df.columns) (hc2 : c2 ∈ df.columns) :
    colValues (setColumnConst df c v) c2 = colValues df c2 := by
  unfold colValues setColumnConst
  split
  · next hc => exact absurd (by simpa using hc) hnew
  · simp only [List.map_map]
    apply List.map_congr_left
    intro a ha
    exact rowVal_append_old df.columns a c c2 v hc2 (hwf a ha)

/-! ### Default-filling loop lemmas -/

theorem fillStep_WF (w : List String) (d : List Value) (acc : DataFrame) (col : String)
    (hwf : acc.WF) : (fillStep w d acc col).WF := by
  unfold fillStep
  split
  · exact hwf
  · exact setColumnConst_WF acc col _ hwf

theorem fillStep_rows_length (w : List String) (d : List Value) (acc : DataFrame)
    (col : String) : (fillStep w d acc col).rows.length = acc.rows.length := by
  unfold fillStep
  split
  · rfl
  · exact setColumnConst_rows_length acc col _

theorem fillStep_mem_of_mem (w : List String) (d : List Value) (acc : DataFrame)
    (col c : String) (h : c ∈ acc.columns) : c ∈ (fillStep w d acc col).columns := by
  unfold fillStep
  split
  · exact h
  · exact mem_setColumnConst_of_mem acc col c _ h

theorem fillStep_mem_self (w : List String) (d : List Value) (acc : DataFrame)
    (col : String) : col ∈ (fillStep w d acc col).columns := by
  unfold fillStep
  split
  · next h => simpa using h
  · exact mem_setColumnConst_self acc col _

theorem fillMissing_WF (w : List String) (d : List Value) (cols : List String) :
    ∀ (acc : DataFrame), acc.WF → (fillMissing w d acc cols).WF := by
  induction cols with
  | nil => intro acc h; exact h
  | cons c0 cs ih =>
    intro acc h
    exact ih (fillStep w d acc c0) (fillStep_WF w d acc c0 h)

theorem fillMissing_rows_length (w : List String) (d : List Value) (cols : List String) :
    ∀ (acc : DataFrame), (fillMissing w d acc cols).rows.length = acc.rows.length := by
  induction cols with
  | nil => intro acc; rfl
  | cons c0 cs ih =>
    intro acc
    rw [fillMissing, List.foldl_cons]
    rw [show List.foldl (fillStep w d) (fillStep w d acc c0) cs =
      fillMissing w d (fillStep w d acc c0) cs from rfl]
    rw [ih (fillStep w d acc c0), fillStep_rows_length]

theorem fillMissing_mem_of_mem (w : List String) (d : List Value) (cols : List String) :
    ∀ (acc : DataFrame) (c : String), c ∈ acc.columns →
      c ∈ (fillMissing w d acc cols).columns := by
  induction cols with
  | nil => intro acc c h; exact h
  | cons c0 cs ih =>
    intro acc c h
    exact ih (fillStep w d acc c0) c (fillStep_mem_of_mem w d acc c0 c h)

theorem fillMissing_mem_of_mem_cols (w : List String) (d : List Value) (cols : List String) :
    ∀ (acc : DataFrame) (c : String), c ∈ cols →
      c ∈ (fillMissing w d acc cols).columns := by
  induction cols with
  | nil => intro acc c h; cases h
  | cons c0 cs ih =>
    intro acc c h
    cases h with
    | head =>
      exact fillMissing_mem_of_mem w d cs (fillStep w d acc c0) c0
        (fillStep_mem_self w d acc c0)
    | tail _ h2 => exact ih (fillStep w d acc c0) c h2

theorem fillStep_not_mem (w : List String) (d : List Value) (acc : DataFrame)
    (col c : String) (hc : c ∉ acc.columns) (hne : c ≠ col) :
    c ∉ (fillStep w d acc col).columns := by
  unfold fillStep
  split
  · exact hc
  · next h =>
    rw [setColumnConst_columns_new acc col _ (by simpa using h)]
    simp only [List.mem_append, List.mem_singleton]
    rintro (h1 | h1)
    · exact hc h1
    · exact hne h1

theorem fillStep_columns_extend (w : List String) (d : List Value) (acc : DataFrame)
    (col : String) : ∃ t, (fillStep w d acc col).columns = acc.columns ++ t := by
  unfold fillStep
  split
  · exact ⟨[], by simp⟩
  · next h => exact ⟨[col], setColumnConst_columns_new acc col _ (by simpa using h)⟩

theorem fillMissing_columns_extend (w : List String) (d : List Value) (cols : List String) :
    ∀ (acc : DataFrame), ∃ t, (fillMissing w d acc cols).columns = acc.columns ++ t := by
  induction cols with
  | nil => intro acc; exact ⟨[], by simp [fillMissing]⟩
  | cons c0 cs ih =>
    intro acc
    obtain ⟨t1, h1⟩ := fillStep_columns_extend w d acc c0
    obtain ⟨t2, h2⟩ := ih (fillStep w d acc c0)
    refine ⟨t1 ++ t2, ?_⟩
    rw [show fillMissing w d acc (c0 :: cs) =
      fillMissing w d (fillStep w d acc c0) cs from rfl, h2, h1, List.append_assoc]

theorem fillMissing_colValues_old (w : List String) (d : List Value) (cols : List String) :
    ∀ (acc : DataFrame) (c : String), acc.WF → c ∈ acc.columns →
      colValues (fillMissing w d acc cols) c = colValues acc c := by
  induction cols with
  | nil => intro acc c _ _; rfl
  | cons c0 cs ih =>
    intro acc c hwf hc
    have step1 : colValues (fillStep w d acc c0) c = colValues acc c := by
      unfold fillStep
      split
      · rfl
      · next h =>
        exact colValues_setColumnConst_old acc c0 c _ hwf (by simpa using h) hc
    calc colValues (fillMissing w d acc (c0 :: cs)) c
        = colValues (fillMissing w d (fillStep w d acc c0) cs) c := rfl
      _ = colValues (fillStep w d acc c0) c :=
          ih (fillStep w d acc c0) c (fillStep_WF w d acc c0 hwf)
            (fillStep_mem_of_mem w d acc c0 c hc)
      _ = colValues acc c := step1

theorem fillMissing_colValues_new (w : List String) (d : List Value) (cols : List String) :
    ∀ (acc : DataFrame) (c : String), acc.WF → c ∉ acc.columns → c ∈ cols →
      colValues (fillMissing w d acc cols) c =
        List.replicate acc.rows.length (rowVal w d c) := by
  induction cols with
  | nil => intro acc c _ _ h; cases h
  | cons c0 cs ih =>
    intro acc c hwf hnot hmem
    by_cases he : c0 = c
    · subst he
      have hstep : fillStep w d acc c0 = setColumnConst acc c0 (rowVal w d c0) := by
        unfold fillStep
        split
        · next h => exact absurd (by simpa using h) hnot
        · rfl
      calc colValues (fillMissing w d acc (c0 :: cs)) c0
          = colValues (fillMissing w d (fillStep w d acc c0) cs) c0 := rfl
        _ = colValues (fillStep w d acc c0) c0 :=
            fillMissing_colValues_old w d cs (fillStep w d acc c0) c0
              (fillStep_WF w d acc c0 hwf) (fillStep_mem_self w d acc c0)
        _ = List.replicate acc.rows.length (rowVal w d c0) := by
            rw [hstep]
            exact colValues_setColumnConst_new acc c0 _ hwf hnot
    · have hmem' : c ∈ cs := by
        cases hmem with
        | head => exact absurd rfl he
        | tail _ h2 => exact h2
      have h1 := ih (fillStep w d acc c0) c (fillStep_WF w d acc c0 hwf)
        (fillStep_not_mem w d acc c0 c hnot (fun e => he e.symm)) hmem'
      calc colValues (fillMissing w d acc (c0 :: cs)) c
          = colValues (fillMissing w d (fillStep w d acc c0) cs) c := rfl
        _ = List.replicate (fillStep w d acc c0).rows.length (rowVal w d c) := h1
        _ = List.replicate acc.rows.length (rowVal w d c) := by
            rw [fillStep_rows_length]

/-! ### Selection lemmas -/

theorem selectColumns_spec (df : DataFrame) (cols : List String)
    (h : ∀ c ∈ cols, c ∈ df.columns) :
    ∃ out, selectColumns df cols = Except.ok out ∧ out.columns = cols ∧
      out.rows.length = df.rows.length ∧
      (∀ c ∈ cols, colValues out c = colValues df c) := by
  have hfil : cols.filter (fun c => !(df.columns.contains c)) = [] := by
    rw [List.filter_eq_nil_iff]
    intro a ha
    simpa using h a ha
  refine ⟨⟨cols, df.rows.map (fun r => cols.map (fun c => rowVal df.columns r c))⟩,
    ?_, rfl, by simp, ?_⟩
  · simp only [selectColumns, hfil, List.isEmpty_nil, if_true]
  · intro c hc
    unfold colValues
    simp only [List.map_map]
    apply List.map_congr_left
    intro a _
    exact rowVal_map_self cols (fun c2 => rowVal df.columns a c2) c hc

theorem selectColumns_error (df : DataFrame) (cols : List String) (c : String)
    (hc : c ∈ cols) (hnot : c ∉ df.columns) :
    ∃ m, selectColumns df cols = Except.error (ConvError.missingColumns m) ∧ c ∈ m ∧
      ∀ c2 ∈ m, c2 ∈ cols ∧ c2 ∉ df.columns := by
  have hm : c ∈ cols.filter (fun x => !(df.columns.contains x)) :=
    List.mem_filter.mpr ⟨hc, by simpa using hnot⟩
  refine ⟨cols.filter (fun x => !(df.columns.contains x)), ?_, hm, ?_⟩
  · simp only [selectColumns]
    split
    · next hemp =>
      rw [List.isEmpty_iff] at hemp
      rw [hemp] at hm
      cases hm
    · rfl
  · intro c2 hc2
    have := List.mem_filter.mp hc2
    exact ⟨this.1, by simpa using this.2⟩

/-! ### Characterization of the SK→WP conversion -/

theorem convert_sk_to_wp_eq (sk wp : DataFrame) (d : List Value)
    (rest : List (List Value)) (hw : wp.rows = d :: rest) :
    convert_sk_to_wp sk wp =
      (selectColumns
        (fillMissing wp.columns d
          (setColumnVals sk "ID" (idValues sk.rows.length)) wp.columns)
        ("ID" :: wp.columns.filter (fun c => c != "ID"))).map
        (fun out =>
          (fillMissing wp.columns d
            (setColumnVals sk "ID" (idValues sk.rows.length)) wp.columns, out)) := by
  unfold convert_sk_to_wp
  rw [hw]

theorem convert_sk_to_wp_spec (sk wp : DataFrame) (hwf : sk.WF) (hne : wp.rows ≠ []) :
    ∃ sk2 out, convert_sk_to_wp sk wp = Except.ok (sk2, out) ∧
      out.columns = "ID" :: wp.columns.filter (fun c => c != "ID") ∧
      out.rows.length = sk.rows.length ∧
      colValues out "ID" = idValues sk.rows.length ∧
      (∀ c, c ∈ wp.columns → c ≠ "ID" → c ∈ sk.columns →
        colValues out c = colValues sk c) ∧
      (∀ c, c ∈ wp.columns → c ≠ "ID" → c ∉ sk.columns →
        colValues out c =
          List.replicate sk.rows.length (rowVal wp.columns (wp.rows.headD []) c)) ∧
      (∃ t, sk2.columns = sk.columns ++ t) ∧
      (∀ c ∈ sk.columns, c ≠ "ID" → colValues sk2 c = colValues sk c) ∧
      sk2.rows.length = sk.rows.length := by
  cases hw : wp.rows with
  | nil => exact absurd hw hne
  | cons d rest =>
  have hvlen : sk.rows.length = (idValues sk.rows.length).length := by
    rw [idValues, List.length_map, List.length_range]
  have hwf1 : (setColumnVals sk "ID" (idValues sk.rows.length)).WF :=
    setColumnVals_WF sk "ID" _ hwf
  have hlen1 : (setColumnVals sk "ID" (idValues sk.rows.length)).rows.length =
      sk.rows.length :=
    setColumnVals_rows_length sk "ID" _ hvlen.symm
  have hID1 : "ID" ∈ (setColumnVals sk "ID" (idValues sk.rows.length)).columns :=
    mem_setColumnVals_self sk "ID" _
  have hIDv1 : colValues (setColumnVals sk "ID" (idValues sk.rows.length)) "ID" =
      idValues sk.rows.length :=
    colValues_setColumnVals_self sk "ID" _ hwf hvlen
  have hwf2 : (fillMissing wp.columns d
      (setColumnVals sk "ID" (idValues sk.rows.length)) wp.columns).WF :=
    fillMissing_WF wp.columns d wp.columns _ hwf1
  have hlen2 : (fillMissing wp.columns d
      (setColumnVals sk "ID" (idValues sk.rows.length)) wp.columns).rows.length =
      sk.rows.length := by
    rw [fillMissing_rows_length]
    exact hlen1
  have hID2 : "ID" ∈ (fillMissing wp.columns d
      (setColumnVals sk "ID" (idValues sk.rows.length)) wp.columns).columns :=
    fillMissing_mem_of_mem wp.columns d wp.columns _ "ID" hID1
  have hmemAll : ∀ c ∈ wp.columns, c ∈ (fillMissing wp.columns d
      (setColumnVals sk "ID" (idValues sk.rows.length)) wp.columns).columns :=
    fun c hc => fillMissing_mem_of_mem_cols wp.columns d wp.columns _ c hc
  have hIDv2 : colValues (fillMissing wp.columns d
      (setColumnVals sk "ID" (idValues sk.rows.length)) wp.columns) "ID" =
      idValues sk.rows.length := by
    rw [fillMissing_colValues_old wp.columns d wp.columns _ "ID" hwf1 hID1]
    exact hIDv1
  have hselmem : ∀ c ∈ ("ID" :: wp.columns.filter (fun c => c != "ID")),
      c ∈ (fillMissing wp.columns d
        (setColumnVals sk "ID" (idValues sk.rows.length)) wp.columns).columns := by
    intro c hc
    cases hc with
    | head => exact hID2
    | tail _ h2 => exact hmemAll c (List.mem_filter.mp h2).1
  obtain ⟨out, hsel, hcols, hrows, hvals⟩ := selectColumns_spec _ _ hselmem
  refine ⟨_, out, ?_, hcols, by rw [hrows]; exact hlen2, ?_, ?_, ?_, ?_, ?_, hlen2⟩
  · rw [convert_sk_to_wp_eq sk wp d rest hw, hsel]
    rfl
  · rw [hvals "ID" (List.mem_cons_self _ _)]
    exact hIDv2
  · intro c hcw hcne hcsk
    have hcsel : c ∈ "ID" :: wp.columns.filter (fun x => x != "ID") :=
      List.mem_cons_of_mem _ (List.mem_filter.mpr ⟨hcw, by simpa using hcne⟩)
    rw [hvals c hcsel]
    have hc1 : c ∈ (setColumnVals sk "ID" (idValues sk.rows.length)).columns :=
      mem_setColumnVals_of_mem sk "ID" c _ hcsk
    rw [fillMissing_colValues_old wp.columns d wp.columns _ c hwf1 hc1]
    exact colValues_setColumnVals_ne sk "ID" c _ hwf hvlen hcsk hcne
  · intro c hcw hcne hcnot
    have hcsel : c ∈ "ID" :: wp.columns.filter (fun x => x != "ID") :=
      List.mem_cons_of_mem _ (List.mem_filter.mpr ⟨hcw, by simpa using hcne⟩)
    have hc1not : c ∉ (setColumnVals sk "ID" (idValues sk.rows.length)).columns := by
      rcases setColumnVals_columns sk "ID" (idValues sk.rows.length) with h | h <;> rw [h]
      · exact hcnot
      · simp only [List.mem_append, List.mem_singleton]
        rintro (h2 | h2)
        · exact hcnot h2
        · exact hcne h2
    rw [hvals c hcsel,
      fillMissing_colValues_new wp.columns d wp.columns _ c hwf1 hc1not hcw, hlen1]
    rfl
  · have h0 : ∃ t0, (setColumnVals sk "ID" (idValues sk.rows.length)).columns =
        sk.columns ++ t0 := by
      rcases setColumnVals_columns sk "ID" (idValues sk.rows.length) with h | h
      · exact ⟨[], by rw [h, List.append_nil]⟩
      · exact ⟨["ID"], h⟩
    obtain ⟨t0, h0⟩ := h0
    obtain ⟨t2, h2⟩ := fillMissing_columns_extend wp.columns d wp.columns
      (setColumnVals sk "ID" (idValues sk.rows.length))
    exact ⟨t0 ++ t2, by rw [h2, h0, List.append_assoc]⟩
  · intro c hcsk hcne
    have hc1 : c ∈ (setColumnVals sk "ID" (idValues sk.rows.length)).columns :=
      mem_setColumnVals_of_mem sk "ID" c _ hcsk
    rw [fillMissing_colValues_old wp.columns d wp.columns _ c hwf1 hc1]
    exact colValues_setColumnVals_ne sk "ID" c _ hwf hvlen hcsk hcne

/-! ### Claim theorems -/

/-- C1: for every well-formed SK input table of N rows (and a non-empty WP
reference table, without which the conversion raises), convert_sk_to_wp
succeeds with an output of exactly N rows whose ID column is
[20000, 20001, ..., 20000+N-1] in existing row order, overwriting any
pre-existing ID column of the input. -/
theorem c1_sk_to_wp_rows_and_ids (sk wp : DataFrame) (hwf : sk.WF)
    (hne : wp.rows ≠ []) :
    ∃ sk2 out, convert_sk_to_wp sk wp = Except.ok (sk2, out) ∧
      out.rows.length = sk.rows.length ∧
      colValues out "ID" =
        (List.range sk.rows.length).map (fun i => Value.intV (20000 + Int.ofNat i)) := by
  obtain ⟨sk2, out, heq, _, hrows, hid, _, _, _, _, _⟩ :=
    convert_sk_to_wp_spec sk wp hwf hne
  exact ⟨sk2, out, heq, hrows, hid⟩

/-- Witness for C1 at the concrete 2-row scenario tables. -/
theorem c1_sk_to_wp_rows_and_ids_witness :
    ∃ sk2 out, convert_sk_to_wp skNameAB wpRefINP = Except.ok (sk2, out) ∧
      out.rows.length = skNameAB.rows.length ∧
      colValues out "ID" =
        (List.range skNameAB.rows.length).map
          (fun i => Value.intV (20000 + Int.ofNat i)) :=
  c1_sk_to_wp_rows_and_ids skNameAB wpRefINP (by decide) (by decide)

/-- C7: on the concrete scenario input (SK table with Name = [A, B]; WP
reference with columns [ID, Name, Price] and first row [1, X, 9.99]) the
conversion returns the table with columns ordered [ID, Name, Price],
ID = [20000, 20001], Name = [A, B] and Price = [9.99, 9.99]. -/
theorem c7_scenario :
    convert_sk_to_wp skNameAB wpRefINP =
      Except.ok
        (⟨["Name", "ID", "Price"],
          [[Value.strV "A", Value.intV 20000, Value.strV "9.99"],
           [Value.strV "B", Value.intV 20001, Value.strV "9.99"]]⟩,
         ⟨["ID", "Name", "Price"],
          [[Value.intV 20000, Value.strV "A", Value.strV "9.99"],
           [Value.intV 20001, Value.strV "B", Value.strV "9.99"]]⟩) ∧
    colValues
      ⟨["ID", "Name", "Price"],
       [[Value.intV 20000, Value.strV "A", Value.strV "9.99"],
        [Value.intV 20001, Value.strV "B", Value.strV "9.99"]]⟩ "ID" =
      [Value.intV 20000, Value.intV 20001] ∧
    colValues
      ⟨["ID", "Name", "Price"],
       [[Value.intV 20000, Value.strV "A", Value.strV "9.99"],
        [Value.intV 20001, Value.strV "B", Value.strV "9.99"]]⟩ "Name" =
      [Value.strV "A", Value.strV "B"] ∧
    colValues
      ⟨["ID", "Name", "Price"],
       [[Value.intV 20000, Value.strV "A", Value.strV "9.99"],
        [Value.intV 20001, Value.strV "B", Value.strV "9.99"]]⟩ "Price" =
      [Value.strV "9.99", Value.strV "9.99"] := by decide

/-- C4: for every WP input table containing every column named by the SK
reference table, convert_wp_to_sk returns a table whose columns are exactly
the SK reference's columns in the SK reference's order, with row order and
all cell values copied unchanged from the same-named input columns. -/
theorem c4_wp_to_sk_projection (wp sk : DataFrame)
    (h : ∀ c ∈ sk.columns, c ∈ wp.columns) :
    ∃ out, convert_wp_to_sk wp sk = Except.ok out ∧
      out.columns = sk.columns ∧
      out.rows.length = wp.rows.length ∧
      (∀ c ∈ sk.columns, colValues out c = colValues wp c) := by
  obtain ⟨out, hsel, hcols, hrows, hvals⟩ := selectColumns_spec wp sk.columns h
  exact ⟨out, hsel, hcols, hrows, hvals⟩

/-- Witness for C4 at a concrete WP input and SK reference. -/
theorem c4_wp_to_sk_projection_witness :
    ∃ out, convert_wp_to_sk wpInputINP skRefName = Except.ok out ∧
      out.columns = skRefName.columns ∧
      out.rows.length = wpInputINP.rows.length ∧
      (∀ c ∈ skRefName.columns, colValues out c = colValues wpInputINP c) :=
  c4_wp_to_sk_projection wpInputINP skRefName (by decide)

/-- C5: for every WP input table missing at least one column named by the SK
reference table, convert_wp_to_sk fails with a reported error carrying the
list of missing column names, which includes the missing column; no default
value is substituted in this direction. -/
theorem c5_wp_to_sk_missing_column (wp sk : DataFrame) (c : String)
    (hc : c ∈ sk.columns) (hnot : c ∉ wp.columns) :
    ∃ m, convert_wp_to_sk wp sk = Except.error (ConvError.missingColumns m) ∧
      c ∈ m ∧ (∀ c2 ∈ m, c2 ∈ sk.columns ∧ c2 ∉ wp.columns) :=
  selectColumns_error wp sk.columns c hc hnot

/-- Witness for C5: the WP input lacks the Category column the SK schema
requires. -/
theorem c5_wp_to_sk_missing_column_witness :
    ∃ m, convert_wp_to_sk wpInputINP skRefNameCategory =
        Except.error (ConvError.missingColumns m) ∧
      "Category" ∈ m ∧
      (∀ c2 ∈ m, c2 ∈ skRefNameCategory.columns ∧ c2 ∉ wpInputINP.columns) :=
  c5_wp_to_sk_missing_column wpInputINP skRefNameCategory "Category"
    (by decide) (by decide)

/-- C10: convert_sk_to_wp unconditionally prepends ID to the selected column
list, so for a well-formed input and a non-empty WP reference table whose
schema has no ID column, the output's first column is still ID and the
output columns are ID followed by the whole WP schema, not the WP schema's
column set. -/
theorem c10_id_always_prepended (sk wp : DataFrame) (hwf : sk.WF)
    (hne : wp.rows ≠ []) (hnoID : "ID" ∉ wp.columns) :
    ∃ sk2 out, convert_sk_to_wp sk wp = Except.ok (sk2, out) ∧
      out.columns = "ID" :: wp.columns ∧
      out.columns.head? = some "ID" ∧
      "ID" ∈ out.columns ∧ "ID" ∉ wp.columns := by
  obtain ⟨sk2, out, heq, hcols, _, _, _, _, _, _, _⟩ :=
    convert_sk_to_wp_spec sk wp hwf hne
  have hfil : wp.columns.filter (fun c => c != "ID") = wp.columns := by
    apply List.filter_eq_self.mpr
    intro a ha
    rw [bne_iff_ne]
    intro h
    exact hnoID (h ▸ ha)
  refine ⟨sk2, out, heq, ?_, ?_, ?_, hnoID⟩
  · rw [hcols, hfil]
  · rw [hcols]
    rfl
  · rw [hcols]
    exact List.mem_cons_self _ _

/-- Witness for C10 at a WP reference table whose only column is Name. -/
theorem c10_id_always_prepended_witness :
    ∃ sk2 out, convert_sk_to_wp skNameA wpRefNameOnly = Except.ok (sk2, out) ∧
      out.columns = "ID" :: wpRefNameOnly.columns ∧
      out.columns.head? = some "ID" ∧
      "ID" ∈ out.columns ∧ "ID" ∉ wpRefNameOnly.columns :=
  c10_id_always_prepended skNameA wpRefNameOnly (by decide) (by decide) (by decide)

/-- Counterexample to C2 as stated: with a WP reference table whose schema
has no ID column, the output's column list is [ID, Name], which is not the
WP schema's column set [Name] — ID is in the output but not in the schema. -/
theorem c2_counterexample :
    convert_sk_to_wp skNameA wpRefNameOnly =
      Except.ok
        (⟨["Name", "ID"], [[Value.strV "A", Value.intV 20000]]⟩,
         ⟨["ID", "Name"], [[Value.intV 20000, Value.strV "A"]]⟩) ∧
    "ID" ∈ (⟨["ID", "Name"],
      [[Value.intV 20000, Value.strV "A"]]⟩ : DataFrame).columns ∧
    "ID" ∉ wpRefNameOnly.columns := by decide

/-- C2 amended: provided the WP reference table's schema contains ID, the
output's column list is exactly ID first followed by the other WP reference
columns in their original order, its membership coincides with the WP
schema's column set, and every input column outside the WP schema is
dropped. -/
theorem c2_output_columns (sk wp : DataFrame) (hwf : sk.WF)
    (hne : wp.rows ≠ []) (hID : "ID" ∈ wp.columns) :
    ∃ sk2 out, convert_sk_to_wp sk wp = Except.ok (sk2, out) ∧
      out.columns = "ID" :: wp.columns.filter (fun c => c != "ID") ∧
      (∀ c, c ∈ out.columns ↔ c ∈ wp.columns) ∧
      (∀ c ∈ sk.columns, c ∉ wp.columns → c ∉ out.columns) := by
  obtain ⟨sk2, out, heq, hcols, _, _, _, _, _, _, _⟩ :=
    convert_sk_to_wp_spec sk wp hwf hne
  refine ⟨sk2, out, heq, hcols, ?_, ?_⟩
  · intro c
    rw [hcols]
    simp only [List.mem_cons, List.mem_filter, bne_iff_ne, ne_eq]
    constructor
    · rintro (rfl | ⟨h1, _⟩)
      · exact hID
      · exact h1
    · intro hc
      by_cases h : c = "ID"
      · exact Or.inl h
      · exact Or.inr ⟨hc, h⟩
  · intro c hcsk hcnot
    rw [hcols]
    simp only [List.mem_cons, List.mem_filter, bne_iff_ne, ne_eq]
    rintro (rfl | ⟨h1, _⟩)
    · exact hcnot hID
    · exact hcnot h1

/-- Witness for the amended C2 at the scenario tables, whose WP schema does
contain ID. -/
theorem c2_output_columns_witness :
    ∃ sk2 out, convert_sk_to_wp skNameAB wpRefINP = Except.ok (sk2, out) ∧
      out.columns = "ID" :: wpRefINP.columns.filter (fun c => c != "ID") ∧
      (∀ c, c ∈ out.columns ↔ c ∈ wpRefINP.columns) ∧
      (∀ c ∈ skNameAB.columns, c ∉ wpRefINP.columns → c ∉ out.columns) :=
  c2_output_columns skNameAB wpRefINP (by decide) (by decide) (by decide)

/-- Counterexample to C3 as stated: ID is a column of the WP schema absent
from the SK input, yet the output's ID value is the regenerated 20000, not
the WP reference table's first-row value 1 — the ID assignment runs before
the default-filling loop, so ID is never default-filled. -/
theorem c3_counterexample :
    convert_sk_to_wp skNameA wpRefINP =
      Except.ok
        (⟨["Name", "ID", "Price"],
          [[Value.strV "A", Value.intV 20000, Value.strV "9.99"]]⟩,
         ⟨["ID", "Name", "Price"],
          [[Value.intV 20000, Value.strV "A", Value.strV "9.99"]]⟩) ∧
    "ID" ∈ wpRefINP.columns ∧ "ID" ∉ skNameA.columns ∧
    rowVal wpRefINP.columns (wpRefINP.rows.headD []) "ID" = Value.intV 1 ∧
    colValues
      ⟨["ID", "Name", "Price"],
       [[Value.intV 20000, Value.strV "A", Value.strV "9.99"]]⟩ "ID" =
      [Value.intV 20000] ∧
    Value.intV 20000 ≠ Value.intV 1 := by decide

/-- C3 amended: for a well-formed SK input and a non-empty WP reference
table, every column other than ID that is present in the WP schema but
absent from the SK input is filled, in every output row, with the WP
reference table's first-row value for that column (the ID column is instead
regenerated). -/
theorem c3_default_fill (sk wp : DataFrame) (c : String) (hwf : sk.WF)
    (hne : wp.rows ≠ []) (hcw : c ∈ wp.columns) (hcne : c ≠ "ID")
    (hcnot : c ∉ sk.columns) :
    ∃ sk2 out, convert_sk_to_wp sk wp = Except.ok (sk2, out) ∧
      colValues out c =
        List.replicate sk.rows.length
          (rowVal wp.columns (wp.rows.headD []) c) := by
  obtain ⟨sk2, out, heq, _, _, _, _, hnew, _, _, _⟩ :=
    convert_sk_to_wp_spec sk wp hwf hne
  exact ⟨sk2, out, heq, hnew c hcw hcne hcnot⟩

/-- Witness for the amended C3: the Price column is absent from the SK input
and gets the WP reference's first-row value 9.99 in every row. -/
theorem c3_default_fill_witness :
    ∃ sk2 out, convert_sk_to_wp skNameAB wpRefINP = Except.ok (sk2, out) ∧
      colValues out "Price" =
        List.replicate skNameAB.rows.length
          (rowVal wpRefINP.columns (wpRefINP.rows.headD []) "Price") :=
  c3_default_fill skNameAB wpRefINP "Price" (by decide) (by decide) (by decide)
    (by decide) (by decide)

/-- Conversion with an empty WP reference table raises before anything is
returned. -/
theorem convert_sk_to_wp_empty (sk wp : DataFrame) (h : wp.rows = []) :
    convert_sk_to_wp sk wp = Except.error ConvError.emptyReference := by
  unfold convert_sk_to_wp
  rw [h]

/-- Counterexample to C6 as stated: convert_sk_to_wp mutates its sk argument
in place — after the call the source table has gained the ID and Price
columns, so the final state of the input differs from the input. -/
theorem c6_counterexample :
    convert_sk_to_wp skNameA wpRefINP =
      Except.ok
        (⟨["Name", "ID", "Price"],
          [[Value.strV "A", Value.intV 20000, Value.strV "9.99"]]⟩,
         ⟨["ID", "Name", "Price"],
          [[Value.intV 20000, Value.strV "A", Value.strV "9.99"]]⟩) ∧
    (⟨["Name", "ID", "Price"],
      [[Value.strV "A", Value.intV 20000, Value.strV "9.99"]]⟩ : DataFrame) ≠
      skNameA := by decide

/-- C6 amended: convert_wp_to_sk builds a fresh selection and modifies
nothing, and both results depend only on the two argument tables, but
convert_sk_to_wp mutates its sk argument in place; the mutation is limited
to overwriting or appending the ID column and appending missing WP-schema
columns — the original columns stay (as a prefix, in order), every original
non-ID column keeps its values, and the row count is unchanged. -/
theorem c6_mutation_frame (sk wp sk2 out : DataFrame) (hwf : sk.WF)
    (heq : convert_sk_to_wp sk wp = Except.ok (sk2, out)) :
    (∃ t, sk2.columns = sk.columns ++ t) ∧
    (∀ c ∈ sk.columns, c ≠ "ID" → colValues sk2 c = colValues sk c) ∧
    sk2.rows.length = sk.rows.length := by
  have hne : wp.rows ≠ [] := by
    intro h
    rw [convert_sk_to_wp_empty sk wp h] at heq
    exact Except.noConfusion heq
  obtain ⟨sk2', out', heq', _, _, _, _, _, hext, hfv, hlen⟩ :=
    convert_sk_to_wp_spec sk wp hwf hne
  rw [heq] at heq'
  injection heq' with hpair
  have h1 : sk2 = sk2' := congrArg Prod.fst hpair
  rw [h1]
  exact ⟨hext, hfv, hlen⟩

/-- Witness for the amended C6 at the concrete tables of the counterexample. -/
theorem c6_mutation_frame_witness :
    (∃ t, (⟨["Name", "ID", "Price"],
      [[Value.strV "A", Value.intV 20000, Value.strV "9.99"]]⟩ :
        DataFrame).columns = skNameA.columns ++ t) ∧
    (∀ c ∈ skNameA.columns, c ≠ "ID" →
      colValues
        ⟨["Name", "ID", "Price"],
         [[Value.strV "A", Value.intV 20000, Value.strV "9.99"]]⟩ c =
      colValues skNameA c) ∧
    (⟨["Name", "ID", "Price"],
      [[Value.strV "A", Value.intV 20000, Value.strV "9.99"]]⟩ :
        DataFrame).rows.length = skNameA.rows.length :=
  c6_mutation_frame skNameA wpRefINP
    ⟨["Name", "ID", "Price"],
     [[Value.strV "A", Value.intV 20000, Value.strV "9.99"]]⟩
    ⟨["ID", "Name", "Price"],
     [[Value.intV 20000, Value.strV "A", Value.strV "9.99"]]⟩
    (by decide) (by decide)

/-- C8: the round trip is not the identity — there is an SK input table for
which SK→WP followed by WP→SK yields a table with the same columns but a
different ID column, because convert_sk_to_wp regenerates the ID values. -/
theorem c8_round_trip_not_identity :
    ∃ sk wpRef skRef sk2 mid out,
      sk.WF ∧
      convert_sk_to_wp sk wpRef = Except.ok (sk2, mid) ∧
      convert_wp_to_sk mid skRef = Except.ok out ∧
      out.columns = sk.columns ∧
      colValues out "ID" ≠ colValues sk "ID" ∧
      out ≠ sk := by
  refine ⟨skInputIDName, skRefIDName, skRefIDName,
    ⟨["ID", "Name"], [[Value.intV 20000, Value.strV "A"]]⟩,
    ⟨["ID", "Name"], [[Value.intV 20000, Value.strV "A"]]⟩,
    ⟨["ID", "Name"], [[Value.intV 20000, Value.strV "A"]]⟩, ?_⟩
  decide

/-- Responses are only ever 200 or 500: the handler's try/except admits no
other status. -/
theorem runEndpoint_status (parsed : Except ConvError DataFrame)
    (ref : DataFrame)
    (conv : DataFrame → DataFrame → Except ConvError DataFrame) :
    (runEndpoint parsed ref conv).status = 200 ∨
    (runEndpoint parsed ref conv).status = 500 := by
  unfold runEndpoint endpointRespond
  cases parsed.bind (fun df => conv df ref) with
  | ok o => exact Or.inl rfl
  | error e2 => exact Or.inr rfl

/-- C9: whenever CSV parsing or conversion fails with an error, the handler
responds with HTTP status 500 whose detail text is exactly the message of
the underlying exception; the response status is never anything other than
200 or 500, and the same treatment applies to every error uniformly. -/
theorem c9_endpoint_error_500 (parsed : Except ConvError DataFrame)
    (ref : DataFrame)
    (conv : DataFrame → DataFrame → Except ConvError DataFrame) (e : ConvError)
    (h : parsed.bind (fun df => conv df ref) = Except.error e) :
    runEndpoint parsed ref conv = ⟨500, errMessage e⟩ ∧
    ((runEndpoint parsed ref conv).status = 200 ∨
      (runEndpoint parsed ref conv).status = 500) := by
  constructor
  · unfold runEndpoint
    rw [h]
    rfl
  · exact runEndpoint_status parsed ref conv

/-- Witness for C9: a WP→SK request whose input lacks the required Category
column is answered with status 500 and the KeyError's message as detail. -/
theorem c9_endpoint_error_500_witness :
    runEndpoint (Except.ok wpInputINP) skRefNameCategory convert_wp_to_sk =
      ⟨500, errMessage (ConvError.missingColumns ["Category"])⟩ ∧
    ((runEndpoint (Except.ok wpInputINP) skRefNameCategory
        convert_wp_to_sk).status = 200 ∨
      (runEndpoint (Except.ok wpInputINP) skRefNameCategory
        convert_wp_to_sk).status = 500) :=
  c9_endpoint_error_500 (Except.ok wpInputINP) skRefNameCategory
    convert_wp_to_sk (ConvError.missingColumns ["Category"]) (by decide)
